import Mathlib

/-!
Shallow embedding of the SmoothBox Raspberry Pi camera program (`src/main.py`)
and proofs about its presence-detection core, smoothing window, capture
dispatcher and trigger orchestration loops.

Conventions of the embedding:
* distances are integer millimeters, modelled as `Nat` (the VL53L1X driver
  reports non-negative integer mm);
* one iteration of an `asyncio` loop becomes one step of a pure transition
  function; wall-clock time in the burst loops is idealized as discrete ticks
  where a capture is instantaneous and each sleep advances time by its
  configured interval (intervals are assumed positive ticks);
* external collaborators (sensor driver, PIL encoder, HTTP transport) enter as
  inputs: a sensor read outcome is `Option Nat` (`none` = read failure), a
  camera try-block outcome is `Option (List Nat)` (the encoded bytes), and a
  transport outcome is a `TransportResult`.
-/

namespace SmoothBox

/-- Distance thresholds (config `tof_sensor.thresholds`): presence is asserted
strictly below `vehicle_present_mm`, absence strictly above `vehicle_absent_mm`. -/
structure Thresholds where
  vehicle_present_mm : Nat
  vehicle_absent_mm : Nat
deriving DecidableEq

/-- Mutable state of `ToFSensor`: the last raw reading (`current_distance`) and
the smoothing history (`distance_history`, oldest first, appended at the end). -/
structure ToFState where
  current_distance : Option Nat
  distance_history : List Nat
deriving DecidableEq

/-- `ToFSensor` state at construction: no reading yet, empty history. -/
def initToF : ToFState := { current_distance := none, distance_history := [] }

/-- State update of a successful `ToFSensor.read_distance` call with raw reading
`d`: set `current_distance`, append `d` to `distance_history`, and `pop(0)` the
oldest entry when the history length exceeds the configured `smoothing_window`
`w`. A failed read (the `except` path) leaves the state unchanged and is
modelled at the loop level instead. -/
def push_sample (w : Nat) (s : ToFState) (d : Nat) : ToFState :=
  { current_distance := some d
    distance_history :=
      if w < (s.distance_history ++ [d]).length then (s.distance_history ++ [d]).tail
      else s.distance_history ++ [d] }

/-- Folding a list of successive successful raw readings through
`read_distance`. -/
def run_reads (w : Nat) (s : ToFState) (xs : List Nat) : ToFState :=
  xs.foldl (push_sample w) s

/-- `ToFSensor.get_smoothed_distance`: `int(sum(history) / len(history))`, the
integer-truncated (floored, as all values are non-negative) moving average;
falls back to `current_distance` when the history is empty. -/
def get_smoothed_distance (s : ToFState) : Option Nat :=
  if s.distance_history = [] then s.current_distance
  else some (s.distance_history.sum / s.distance_history.length)

/-- `ToFSensor.is_vehicle_present`: smoothed distance strictly below
`vehicle_present_mm`; `false` when no smoothed reading is available. -/
def is_vehicle_present (cfg : Thresholds) (s : ToFState) : Bool :=
  match get_smoothed_distance s with
  | none => false
  | some d => decide (d < cfg.vehicle_present_mm)

/-- `ToFSensor.is_vehicle_absent`: smoothed distance strictly above
`vehicle_absent_mm`; `true` ("Assume absent if sensor fails", per the code
comment) when no smoothed reading is available. -/
def is_vehicle_absent (cfg : Thresholds) (s : ToFState) : Bool :=
  match get_smoothed_distance s with
  | none => true
  | some d => decide (cfg.vehicle_absent_mm < d)

/-- Presence transition events emitted by the monitoring loop. -/
inductive TofEvent where
  | Entry
  | Exit
deriving DecidableEq

/-- State carried across iterations of `SmoothBoxCamera._tof_monitoring_loop`:
the sensor state plus the orchestrator's `vehicle_present` flag. -/
structure MonitorState where
  tof : ToFState
  vehicle_present : Bool
deriving DecidableEq

/-- Orchestrator state at construction: `vehicle_present = False`, fresh sensor. -/
def initMonitor : MonitorState := { tof := initToF, vehicle_present := false }

/-- One iteration of the `_tof_monitoring_loop` body on a read outcome (`none`
models `read_distance` returning `None`): a failed read sleeps and `continue`s,
leaving the state untouched and emitting nothing; a successful read updates the
smoothing state, then emits `Entry` when `is_vehicle_present` holds and the
vehicle was not already flagged present, else `Exit` when `is_vehicle_absent`
holds and the vehicle was flagged present, else nothing. -/
def tof_monitor_step (w : Nat) (cfg : Thresholds) (st : MonitorState)
    (reading : Option Nat) : MonitorState × Option TofEvent :=
  match reading with
  | none => (st, none)
  | some d =>
    let tof := push_sample w st.tof d
    if is_vehicle_present cfg tof && !st.vehicle_present then
      ({ tof := tof, vehicle_present := true }, some TofEvent.Entry)
    else if is_vehicle_absent cfg tof && st.vehicle_present then
      ({ tof := tof, vehicle_present := false }, some TofEvent.Exit)
    else
      ({ tof := tof, vehicle_present := st.vehicle_present }, none)

/-- Per-sample event outcomes of running the monitoring loop over a list of
read outcomes (position `i` of the result is the event emitted for reading `i`). -/
def tof_monitor_trace (w : Nat) (cfg : Thresholds) (st : MonitorState) :
    List (Option Nat) → List (Option TofEvent)
  | [] => []
  | r :: rest =>
    (tof_monitor_step w cfg st r).2 ::
      tof_monitor_trace w cfg (tof_monitor_step w cfg st r).1 rest

/-- The events the monitoring loop emits over a list of read outcomes. -/
def tof_monitor_events (w : Nat) (cfg : Thresholds) (st : MonitorState)
    (readings : List (Option Nat)) : List TofEvent :=
  (tof_monitor_trace w cfg st readings).reduceOption

/-- C1: with thresholds 500/700 and window size 1, the stream
`[800,800,400,400,400,650,650,800,800]` from the initial Absent state yields
exactly one `Entry`, at the first `400` (position 2), and exactly one `Exit`,
at the first of the final `800`s (position 7); the `650` readings in the
hysteresis band produce no transition. -/
theorem hysteresis_trace_example :
    tof_monitor_trace 1 ⟨500, 700⟩ initMonitor
        [some 800, some 800, some 400, some 400, some 400,
         some 650, some 650, some 800, some 800] =
      [none, none, some TofEvent.Entry, none, none, none, none,
       some TofEvent.Exit, none] := by
  decide

/-- The spec's "arithmetic mean rounded to the nearest integer millimeter"
(half rounded up), as a reference definition following the spec's words, for
comparison with `get_smoothed_distance`. -/
def meanRoundedNearest (l : List Nat) : Nat :=
  (2 * l.sum + l.length) / (2 * l.length)

/-- History contents after a run of successful reads, relative to a starting
state whose history respects the window bound: the concatenated sample stream
with everything but the last at-most-`w` samples dropped from the front. -/
theorem run_reads_history (w : Nat) (xs : List Nat) : ∀ (s : ToFState),
    s.distance_history.length ≤ w →
    (run_reads w s xs).distance_history =
      (s.distance_history ++ xs).drop (s.distance_history.length + xs.length - w) := by
  induction xs with
  | nil =>
      intro s hs
      have h0 : s.distance_history.length - w = 0 := by omega
      simp [run_reads, h0]
  | cons d rest ih =>
      intro s hs
      have hrun : run_reads w s (d :: rest) = run_reads w (push_sample w s d) rest := rfl
      rw [hrun]
      by_cases hlt : s.distance_history.length < w
      · have hcond : ¬ w < (s.distance_history ++ [d]).length := by
          simp only [List.length_append, List.length_cons, List.length_nil]
          omega
        have hpush : (push_sample w s d).distance_history = s.distance_history ++ [d] := by
          simp only [push_sample]
          rw [if_neg hcond]
        have hlen : (push_sample w s d).distance_history.length ≤ w := by
          rw [hpush]
          simp only [List.length_append, List.length_cons, List.length_nil]
          omega
        rw [ih (push_sample w s d) hlen, hpush]
        have hidx : (s.distance_history ++ [d]).length + rest.length - w =
            s.distance_history.length + (d :: rest).length - w := by
          simp only [List.length_append, List.length_cons, List.length_nil]
          omega
        rw [hidx, List.append_assoc, List.singleton_append]
      · have hw : s.distance_history.length = w := le_antisymm hs (le_of_not_lt hlt)
        have hcond : w < (s.distance_history ++ [d]).length := by
          simp only [List.length_append, List.length_cons, List.length_nil]
          omega
        have hpush : (push_sample w s d).distance_history = (s.distance_history ++ [d]).tail := by
          simp only [push_sample]
          rw [if_pos hcond]
        have hlen : (push_sample w s d).distance_history.length ≤ w := by
          rw [hpush, List.length_tail]
          simp only [List.length_append, List.length_cons, List.length_nil]
          omega
        rw [ih (push_sample w s d) hlen, hpush]
        have hlt2 : ((s.distance_history ++ [d]).tail).length = w := by
          rw [List.length_tail]
          simp only [List.length_append, List.length_cons, List.length_nil]
          omega
        rw [hlt2]
        have hidx1 : w + rest.length - w = rest.length := by omega
        have hidx2 : s.distance_history.length + (d :: rest).length - w = rest.length + 1 := by
          simp only [List.length_cons]
          omega
        rw [hidx1, hidx2]
        cases hh : s.distance_history with
        | nil =>
            simp [hh]
        | cons a h2 =>
            simp only [List.cons_append, List.tail_cons, List.append_assoc,
              List.singleton_append, List.nil_append, List.drop_succ_cons]

/-- History from the initial state: the last at-most-`w` samples, in arrival
order. -/
theorem run_reads_history_init (w : Nat) (xs : List Nat) :
    (run_reads w initToF xs).distance_history = xs.drop (xs.length - w) := by
  have h := run_reads_history w xs initToF (by simp [initToF])
  simpa [initToF] using h

/-- C9: the smoothing window invariant. From the initial state, after any
sequence of pushes the history is exactly the most recent at-most-`w` samples
in arrival order (so its length is at most `w`); and a single push onto a
window respecting the bound appends the new sample and drops exactly the
oldest entry precisely when the capacity would be exceeded (FIFO eviction). -/
theorem smoothing_window_invariant (w : Nat) (xs : List Nat) :
    (run_reads w initToF xs).distance_history = xs.drop (xs.length - w)
    ∧ (run_reads w initToF xs).distance_history.length ≤ w
    ∧ ∀ (s : ToFState) (d : Nat), s.distance_history.length ≤ w →
        (push_sample w s d).distance_history =
          (s.distance_history ++ [d]).drop (s.distance_history.length + 1 - w) := by
  refine ⟨run_reads_history_init w xs, ?_, ?_⟩
  · rw [run_reads_history_init w xs, List.length_drop]
    omega
  · intro s d hs
    by_cases hlt : s.distance_history.length < w
    · have h0 : s.distance_history.length + 1 - w = 0 := by omega
      have hcond : ¬ w < (s.distance_history ++ [d]).length := by
        simp only [List.length_append, List.length_cons, List.length_nil]
        omega
      rw [h0, List.drop_zero]
      simp only [push_sample]
      rw [if_neg hcond]
    · have hw : s.distance_history.length = w := le_antisymm hs (le_of_not_lt hlt)
      have h1 : s.distance_history.length + 1 - w = 1 := by omega
      have hcond : w < (s.distance_history ++ [d]).length := by
        simp only [List.length_append, List.length_cons, List.length_nil]
        omega
      rw [h1, List.drop_one]
      simp only [push_sample]
      rw [if_pos hcond]

/-- Witness for `smoothing_window_invariant` at window size 2 with stream
`[5, 6, 7]`: the history is the last two samples, and a push onto the full
window `[5, 6]` evicts exactly the oldest entry. -/
theorem smoothing_window_invariant_witness :
    (run_reads 2 initToF [5, 6, 7]).distance_history =
      ([5, 6, 7] : List Nat).drop (([5, 6, 7] : List Nat).length - 2)
    ∧ (push_sample 2 ⟨some 6, [5, 6]⟩ 7).distance_history =
        (([5, 6] : List Nat) ++ [7]).drop (([5, 6] : List Nat).length + 1 - 2) :=
  ⟨(smoothing_window_invariant 2 [5, 6, 7]).1,
   (smoothing_window_invariant 2 [5, 6, 7]).2.2 ⟨some 6, [5, 6]⟩ 7 (by decide)⟩

/-- C2 (amended): for a positive window size and a nonempty stream of pushed
samples, the smoother's output equals the arithmetic mean of the last
`min(window_size, samples_seen)` sample values, truncated (floored) to an
integer millimeter — the code computes `int(sum/len)`, which truncates rather
than rounds to nearest. -/
theorem smoothed_is_floor_mean (w : Nat) (xs : List Nat) (hw : 1 ≤ w)
    (hxs : xs ≠ []) :
    get_smoothed_distance (run_reads w initToF xs) =
      some ((xs.drop (xs.length - w)).sum / (xs.drop (xs.length - w)).length)
    ∧ (xs.drop (xs.length - w)).length = min w xs.length := by
  have hh := run_reads_history_init w xs
  have hpos : 0 < xs.length := List.length_pos.mpr hxs
  have hne : xs.drop (xs.length - w) ≠ [] := by
    intro hcontra
    have := List.drop_eq_nil_iff.mp hcontra
    omega
  constructor
  · simp only [get_smoothed_distance, hh]
    rw [if_neg hne]
  · rw [List.length_drop]
    omega

/-- Witness for `smoothed_is_floor_mean`: window size 2, samples `[4, 10]`. -/
theorem smoothed_is_floor_mean_witness :
    (get_smoothed_distance (run_reads 2 initToF [4, 10]) =
      some ((([4, 10] : List Nat).drop (([4, 10] : List Nat).length - 2)).sum /
        (([4, 10] : List Nat).drop (([4, 10] : List Nat).length - 2)).length))
    ∧ (([4, 10] : List Nat).drop (([4, 10] : List Nat).length - 2)).length =
        min 2 ([4, 10] : List Nat).length :=
  smoothed_is_floor_mean 2 [4, 10] (by decide) (by decide)

/-- C2 counterexample: with window size 3 and samples `[1, 2, 2]` the exact
mean is `5/3`; the integer `2` is strictly nearer to it than `1`
(`|3*2 - 5| = 1 < 2 = |5 - 3*1|`), so the value rounded to the nearest integer
is `2` (as `meanRoundedNearest` computes), yet the code returns `1`: the
smoother truncates instead of rounding to nearest. -/
theorem smoothed_truncates_not_rounds :
    get_smoothed_distance (run_reads 3 initToF [1, 2, 2]) = some 1
    ∧ meanRoundedNearest [1, 2, 2] = 2
    ∧ 3 * 2 - (1 + 2 + 2) < (1 + 2 + 2) - 3 * 1 := by
  decide

/-- C3 (amended): when `read_distance` returns `None` (read failure), the
monitoring loop skips the cycle without consulting the detector, so the state
is unchanged and no event — in particular no `Exit` — is emitted; however the
detector method `is_vehicle_absent` itself, applied to a state with no smoothed
reading, returns `true` (the code assumes absence on sensor failure), while
`is_vehicle_present` returns `false`. -/
theorem unavailable_reading_behavior (w : Nat) (cfg : Thresholds)
    (st : MonitorState) (s : ToFState) :
    tof_monitor_step w cfg st none = (st, none)
    ∧ (get_smoothed_distance s = none →
        is_vehicle_absent cfg s = true ∧ is_vehicle_present cfg s = false) := by
  refine ⟨rfl, fun h => ⟨?_, ?_⟩⟩
  · simp [is_vehicle_absent, h]
  · simp [is_vehicle_present, h]

/-- Witness for `unavailable_reading_behavior` at the initial state (which has
no smoothed reading). -/
theorem unavailable_reading_behavior_witness :
    tof_monitor_step 1 ⟨500, 700⟩ initMonitor none = (initMonitor, none)
    ∧ (is_vehicle_absent ⟨500, 700⟩ initToF = true
        ∧ is_vehicle_present ⟨500, 700⟩ initToF = false) :=
  ⟨(unavailable_reading_behavior 1 ⟨500, 700⟩ initMonitor initToF).1,
   (unavailable_reading_behavior 1 ⟨500, 700⟩ initMonitor initToF).2 rfl⟩

/-- C3 counterexample: in a state with no smoothed reading available, the
detector does report the vehicle as absent — `is_vehicle_absent` returns
`true` — contradicting the claim that an unavailable reading neither asserts
nor retracts presence at the detector. -/
theorem detector_assumes_absent_on_none :
    get_smoothed_distance initToF = none
    ∧ is_vehicle_absent ⟨500, 700⟩ initToF = true := by
  decide

/-- Case analysis of one monitoring-loop iteration: either no event is emitted
and the `vehicle_present` flag is unchanged, or `Entry` is emitted on an
Absent-to-Present edge, or `Exit` is emitted on a Present-to-Absent edge. -/
theorem tof_monitor_step_cases (w : Nat) (cfg : Thresholds) (st : MonitorState)
    (r : Option Nat) :
    ((tof_monitor_step w cfg st r).2 = none
      ∧ (tof_monitor_step w cfg st r).1.vehicle_present = st.vehicle_present)
    ∨ ((tof_monitor_step w cfg st r).2 = some TofEvent.Entry
      ∧ st.vehicle_present = false
      ∧ (tof_monitor_step w cfg st r).1.vehicle_present = true)
    ∨ ((tof_monitor_step w cfg st r).2 = some TofEvent.Exit
      ∧ st.vehicle_present = true
      ∧ (tof_monitor_step w cfg st r).1.vehicle_present = false) := by
  cases r with
  | none => exact Or.inl ⟨rfl, rfl⟩
  | some d =>
      simp only [tof_monitor_step]
      split
      · next h =>
          rw [Bool.and_eq_true] at h
          exact Or.inr (Or.inl ⟨rfl, by simpa using h.2, rfl⟩)
      · next h1 =>
          split
          · next h =>
              rw [Bool.and_eq_true] at h
              exact Or.inr (Or.inr ⟨rfl, h.2, rfl⟩)
          · next h2 => exact Or.inl ⟨rfl, rfl⟩

/-- Strict alternation of the event stream relative to the current
`vehicle_present` flag: from Absent the next event can only be `Entry`, from
Present only `Exit`. -/
def eventsAlternateFrom : Bool → List TofEvent → Prop
  | _, [] => True
  | false, TofEvent.Entry :: rest => eventsAlternateFrom true rest
  | true, TofEvent.Exit :: rest => eventsAlternateFrom false rest
  | false, TofEvent.Exit :: _ => False
  | true, TofEvent.Entry :: _ => False

/-- The monitoring loop's emitted events alternate relative to the flag of the
state it starts from. -/
theorem events_alternate_from_state (w : Nat) (cfg : Thresholds) :
    ∀ (readings : List (Option Nat)) (st : MonitorState),
      eventsAlternateFrom st.vehicle_present (tof_monitor_events w cfg st readings) := by
  intro readings
  induction readings with
  | nil =>
      intro st
      simp [tof_monitor_events, tof_monitor_trace, List.reduceOption,
        eventsAlternateFrom]
  | cons r rest ih =>
      intro st
      rcases tof_monitor_step_cases w cfg st r with ⟨hev, hfl⟩ | ⟨hev, h0, h1⟩ | ⟨hev, h0, h1⟩
      · have heq : tof_monitor_events w cfg st (r :: rest) =
            tof_monitor_events w cfg (tof_monitor_step w cfg st r).1 rest := by
          simp [tof_monitor_events, tof_monitor_trace, hev]
        rw [heq]
        have h := ih (tof_monitor_step w cfg st r).1
        rwa [hfl] at h
      · have heq : tof_monitor_events w cfg st (r :: rest) =
            TofEvent.Entry :: tof_monitor_events w cfg (tof_monitor_step w cfg st r).1 rest := by
          simp [tof_monitor_events, tof_monitor_trace, hev]
        rw [heq, h0]
        have h := ih (tof_monitor_step w cfg st r).1
        rw [h1] at h
        simpa [eventsAlternateFrom] using h
      · have heq : tof_monitor_events w cfg st (r :: rest) =
            TofEvent.Exit :: tof_monitor_events w cfg (tof_monitor_step w cfg st r).1 rest := by
          simp [tof_monitor_events, tof_monitor_trace, hev]
        rw [heq, h0]
        have h := ih (tof_monitor_step w cfg st r).1
        rw [h1] at h
        simpa [eventsAlternateFrom] using h

/-- C7: for every sequence of read outcomes processed from the initial Absent
state, the emitted event sequence strictly alternates starting with `Entry`
(`Entry, Exit, Entry, ...`), so no two `Entry` events occur without an
intervening `Exit`. -/
theorem entry_exit_alternation (w : Nat) (cfg : Thresholds)
    (readings : List (Option Nat)) :
    eventsAlternateFrom false (tof_monitor_events w cfg initMonitor readings) :=
  events_alternate_from_state w cfg readings initMonitor

/-- Inner loop of `SmoothBoxCamera._capture_entry_sequence`
(`while datetime.now() < end_time and self.running`): in idealized discrete
time, each iteration checks the deadline `endT` and the running flag at the
current tick `t`, captures, then sleeps `interval` ticks. The guard never
consults `vehicle_present`. `fuel` bounds the iteration count (the caller
supplies the duration, enough iterations for any positive interval). Returns
the list of ticks at which a capture is issued. -/
def entry_burst_go (fuel : Nat) (endT interval : Nat) (running : Nat → Bool)
    (t : Nat) : List Nat :=
  match fuel with
  | 0 => []
  | fuel' + 1 =>
    if t < endT ∧ running t = true then
      t :: entry_burst_go fuel' endT interval running (t + interval)
    else []

/-- `SmoothBoxCamera._capture_entry_sequence`: an entry burst starting at tick
0 with deadline `duration`. The `present` argument mirrors the orchestrator's
`vehicle_present` flag, which this method never reads. -/
def capture_entry_sequence (duration interval : Nat) (running present : Nat → Bool) :
    List Nat :=
  entry_burst_go duration duration interval running 0

/-- Inner burst of `SmoothBoxCamera._periodic_verification_loop`
(`while datetime.now() < end_time and self.running and self.vehicle_present`):
unlike the entry burst, the guard additionally re-checks `vehicle_present`
before every capture. -/
def verification_burst_go (fuel : Nat) (endT interval : Nat)
    (running present : Nat → Bool) (t : Nat) : List Nat :=
  match fuel with
  | 0 => []
  | fuel' + 1 =>
    if t < endT ∧ running t = true ∧ present t = true then
      t :: verification_burst_go fuel' endT interval running present (t + interval)
    else []

/-- One cycle of `_periodic_verification_loop` starting at tick `t0`: sleep
`interval` ticks, then skip the cycle entirely (`continue`) if the vehicle is
not present, else run a verification burst of length `duration` at
`send_interval` ticks. -/
def periodic_verification_cycle (interval duration send_interval : Nat)
    (running present : Nat → Bool) (t0 : Nat) : List Nat :=
  if present (t0 + interval) = false then []
  else
    verification_burst_go duration (t0 + interval + duration) send_interval
      running present (t0 + interval)

/-- Captures of an entry burst happen only before the deadline and while the
running flag holds: the loop terminates only on deadline expiry or shutdown. -/
theorem entry_burst_go_mem (endT interval : Nat) (running : Nat → Bool) :
    ∀ (fuel t0 t : Nat), t ∈ entry_burst_go fuel endT interval running t0 →
      t < endT ∧ running t = true := by
  intro fuel
  induction fuel with
  | zero =>
      intro t0 t ht
      simp [entry_burst_go] at ht
  | succ fuel' ih =>
      intro t0 t ht
      rw [entry_burst_go] at ht
      split at ht
      · next hc =>
          rcases List.mem_cons.mp ht with rfl | hmem
          · exact hc
          · exact ih (t0 + interval) t hmem
      · simp at ht

/-- C5: the entry burst never consults the presence state (its captures are
identical under any two presence histories), a burst with duration 5 and
interval 1 under an always-running orchestrator issues exactly 5 capture
attempts, at ticks 0 through 4, and every capture of any entry burst happens
before the deadline while the orchestrator is running (the loop terminates
only on duration expiry or shutdown). -/
theorem entry_burst_spec (running present : Nat → Bool) :
    (∀ (d i : Nat) (q : Nat → Bool),
      capture_entry_sequence d i running present = capture_entry_sequence d i running q)
    ∧ ((∀ u, running u = true) →
        capture_entry_sequence 5 1 running present = [0, 1, 2, 3, 4])
    ∧ (∀ (d i t : Nat), t ∈ capture_entry_sequence d i running present →
        t < d ∧ running t = true) := by
  refine ⟨fun d i q => rfl, fun h => ?_, fun d i t ht => ?_⟩
  · have hr : running = fun _ => true := funext h
    subst hr
    show entry_burst_go 5 5 1 (fun _ => true) 0 = [0, 1, 2, 3, 4]
    decide
  · exact entry_burst_go_mem d i running d 0 t ht

/-- Witness for `entry_burst_spec`: the always-running 5-second, 1-second
entry burst captures at ticks 0 through 4, and tick 0 of that burst is before
the deadline with the running flag set. -/
theorem entry_burst_spec_witness :
    capture_entry_sequence 5 1 (fun _ => true) (fun _ => true) = [0, 1, 2, 3, 4]
    ∧ (0 < 5 ∧ (fun _ : Nat => true) 0 = true) :=
  ⟨(entry_burst_spec (fun _ => true) (fun _ => true)).2.1 (fun _ => rfl),
   (entry_burst_spec (fun _ => true) (fun _ => true)).2.2 5 1 0 (by decide)⟩

/-- C4: the verification burst re-checks the presence state before every
capture (every issued capture happens at a tick where the vehicle is flagged
present); hence once presence transitions to Absent for good at tick `τ`, no
capture at or after `τ` is ever issued — the burst stops at its next guard
check, within one send interval; and if the vehicle is not present when the
periodic interval elapses, the whole cycle is skipped with no captures. -/
theorem verification_burst_presence_gated (fuel endT interval t0 : Nat)
    (running present : Nat → Bool) :
    (∀ t, t ∈ verification_burst_go fuel endT interval running present t0 →
      present t = true)
    ∧ (∀ τ, (∀ u, τ ≤ u → present u = false) →
        ∀ t, t ∈ verification_burst_go fuel endT interval running present t0 → t < τ)
    ∧ (∀ (i d si : Nat), present (t0 + i) = false →
        periodic_verification_cycle i d si running present t0 = []) := by
  have hmem : ∀ (f s t : Nat),
      t ∈ verification_burst_go f endT interval running present s →
        present t = true := by
    intro f
    induction f with
    | zero =>
        intro s t ht
        simp [verification_burst_go] at ht
    | succ f' ih =>
        intro s t ht
        rw [verification_burst_go] at ht
        split at ht
        · next hc =>
            rcases List.mem_cons.mp ht with rfl | hm
            · exact hc.2.2
            · exact ih (s + interval) t hm
        · simp at ht
  refine ⟨hmem fuel t0, fun τ hτ t ht => ?_, fun i d si hp => ?_⟩
  · by_contra hlt
    have hfalse : present t = false := hτ t (Nat.le_of_not_lt hlt)
    rw [hmem fuel t0 t ht] at hfalse
    exact absurd hfalse (by decide)
  · simp [periodic_verification_cycle, hp]

/-- Witness for `verification_burst_presence_gated`: a 1-tick burst under
constant presence captures at its start tick where presence holds; with
presence gone from tick 1 on, every capture of that burst is before tick 1;
and a cycle that wakes to an absent vehicle issues no captures. -/
theorem verification_burst_presence_gated_witness :
    (fun _ : Nat => true) 0 = true
    ∧ (0 < 1)
    ∧ periodic_verification_cycle 1 1 1 (fun _ => true) (fun _ => false) 0 = [] :=
  ⟨(verification_burst_presence_gated 1 1 1 0 (fun _ => true) (fun _ => true)).1
      0 (by decide),
   (verification_burst_presence_gated 1 1 1 0 (fun _ => true)
      (fun u => decide (u < 1))).2.1 1
      (fun u hu => by simp only [decide_eq_false_iff_not]; omega) 0 (by decide),
   (verification_burst_presence_gated 1 1 1 0 (fun _ => true) (fun _ => false)).2.2
      1 1 1 rfl⟩

/-- Outcome of the `NVIDIAClient.send_image` transport call: an HTTP response
with some status, an `asyncio.TimeoutError`, or any other exception. -/
inductive TransportResult where
  | response (status : Nat)
  | timeoutError
  | connectionError
deriving DecidableEq

/-- `NVIDIAClient.send_image`: returns `True` exactly on HTTP status 200; a
non-200 status, a timeout or any other transport exception is caught and
returns `False` (one send attempt, never raising past its boundary). -/
def send_image (r : TransportResult) : Bool :=
  match r with
  | TransportResult.response s => s == 200
  | TransportResult.timeoutError => false
  | TransportResult.connectionError => false

/-- Spec-level outcome vocabulary for one capture-and-send operation. -/
inductive Outcome where
  | Sent
  | CaptureFailed
  | SendFailed
deriving DecidableEq

/-- Result of one `SmoothBoxCamera._capture_single_image` invocation: its
outcome, the number of camera capture calls made (always the single call the
method issues) and the number of transport send calls made. -/
structure DispatchResult where
  outcome : Outcome
  capture_attempts : Nat
  send_attempts : Nat
deriving DecidableEq

/-- `SmoothBoxCamera._capture_single_image`: one camera call (whose try-block
outcome is `image`; `none` models a failed capture); on `None` it logs and
returns without any send attempt (`CaptureFailed`); otherwise exactly one
send via `send_image` whose boolean result yields `Sent` or `SendFailed`. The
surrounding try/except converts every failure into an outcome, so the
function is total: invoking it cannot terminate an orchestrator loop. -/
def capture_single_image (image : Option (List Nat)) (tr : TransportResult) :
    DispatchResult :=
  match image with
  | none => { outcome := Outcome.CaptureFailed, capture_attempts := 1, send_attempts := 0 }
  | some _ =>
    if send_image tr then
      { outcome := Outcome.Sent, capture_attempts := 1, send_attempts := 1 }
    else
      { outcome := Outcome.SendFailed, capture_attempts := 1, send_attempts := 1 }

/-- C6: the capture-and-send operation returns `CaptureFailed` with no send
attempt when the camera yields no image data; it returns `SendFailed` on a
non-200 status, a timeout or a transport exception, with exactly the single
original capture attempt (no second capture); and for every input it returns
one of the three outcomes — it is total, so it never raises past its boundary
and cannot terminate the orchestrator loops. -/
theorem capture_single_image_spec (image : Option (List Nat)) (tr : TransportResult) :
    (image = none →
      (capture_single_image image tr).outcome = Outcome.CaptureFailed
      ∧ (capture_single_image image tr).send_attempts = 0)
    ∧ (∀ b, image = some b → send_image tr = false →
        (capture_single_image image tr).outcome = Outcome.SendFailed
        ∧ (capture_single_image image tr).capture_attempts = 1)
    ∧ ((∀ s, s ≠ 200 → send_image (TransportResult.response s) = false)
        ∧ send_image TransportResult.timeoutError = false
        ∧ send_image TransportResult.connectionError = false)
    ∧ ((capture_single_image image tr).outcome = Outcome.Sent
        ∨ (capture_single_image image tr).outcome = Outcome.CaptureFailed
        ∨ (capture_single_image image tr).outcome = Outcome.SendFailed) := by
  refine ⟨fun h => ?_, fun b hb hs => ?_, ⟨fun s hs => ?_, rfl, rfl⟩, ?_⟩
  · subst h
    exact ⟨rfl, rfl⟩
  · subst hb
    simp [capture_single_image, hs]
  · simp [send_image, hs]
  · cases image with
    | none => exact Or.inr (Or.inl rfl)
    | some b =>
        by_cases hs : send_image tr = true
        · exact Or.inl (by simp [capture_single_image, hs])
        · refine Or.inr (Or.inr ?_)
          simp [capture_single_image]
          simp at hs
          simp [hs]

/-- Witness for `capture_single_image_spec`: a failed capture yields
`CaptureFailed` with no send attempt; a good image with a timed-out transport
yields `SendFailed` after the single capture attempt; HTTP 500 is a send
failure. -/
theorem capture_single_image_spec_witness :
    ((capture_single_image none TransportResult.timeoutError).outcome
        = Outcome.CaptureFailed
      ∧ (capture_single_image none TransportResult.timeoutError).send_attempts = 0)
    ∧ ((capture_single_image (some [1]) TransportResult.timeoutError).outcome
        = Outcome.SendFailed
      ∧ (capture_single_image (some [1]) TransportResult.timeoutError).capture_attempts = 1)
    ∧ send_image (TransportResult.response 500) = false :=
  ⟨(capture_single_image_spec none TransportResult.timeoutError).1 rfl,
   (capture_single_image_spec (some [1]) TransportResult.timeoutError).2.1 [1] rfl rfl,
   (capture_single_image_spec (some [1]) TransportResult.timeoutError).2.2.1.1
      500 (by decide)⟩

/-- `CameraHandler.capture_image`: with the camera disabled (simulation mode)
it returns the dummy JPEG built by `_create_dummy_image` — the external PIL
encoder's output, always a byte string, never `None`; with the camera enabled
it returns the try-block outcome `hw` (`none` when the capture raised). -/
def capture_image (enabled : Bool) (hw : Option (List Nat)) (dummy : List Nat) :
    Option (List Nat) :=
  if enabled then hw else some dummy

/-- C10: in simulation mode (camera disabled), `capture_image` always returns
the dummy JPEG bytes and never `None`; consequently the `CaptureFailed` path
of the capture-and-send operation is unreachable in that mode and every
capture attempt proceeds to exactly one send attempt. -/
theorem simulation_capture_never_fails (dummy : List Nat) (hw : Option (List Nat))
    (tr : TransportResult) :
    capture_image false hw dummy = some dummy
    ∧ capture_image false hw dummy ≠ none
    ∧ (capture_single_image (capture_image false hw dummy) tr).outcome
        ≠ Outcome.CaptureFailed
    ∧ (capture_single_image (capture_image false hw dummy) tr).send_attempts = 1 := by
  refine ⟨rfl, by simp [capture_image], ?_, ?_⟩
  · by_cases hs : send_image tr = true <;>
      simp [capture_image, capture_single_image, hs]
  · by_cases hs : send_image tr = true <;>
      simp [capture_image, capture_single_image, hs]

/-- Startup outcome of `SmoothBoxCamera.start`: `sensor_enabled` is
`ToFSensor.enabled` as it stands once `initialize()` has returned (config flag,
library availability and initialization success combined); no later code path
ever sets it back to `True`, so it is fixed for the process lifetime.
`fallback_cfg_enabled` is `fallback.periodic_capture.enabled`. -/
structure StartFlags where
  sensor_enabled : Bool
  fallback_cfg_enabled : Bool
deriving DecidableEq

/-- The `_tof_monitoring_loop` body runs only when the sensor is enabled
(early return otherwise). -/
def tof_monitoring_runs (f : StartFlags) : Bool := f.sensor_enabled

/-- The fallback task is created in `start()` only when the sensor is disabled,
and its loop body runs only when the fallback capture is configured on. -/
def fallback_loop_runs (f : StartFlags) : Bool :=
  !f.sensor_enabled && f.fallback_cfg_enabled

/-- Sensor-driven trigger events over a process run: the entry bursts and exit
captures are spawned only from inside the monitoring loop, which produces no
events at all when the sensor is disabled. -/
def sensor_trigger_events (f : StartFlags) (w : Nat) (cfg : Thresholds)
    (readings : List (Option Nat)) : List TofEvent :=
  if tof_monitoring_runs f then tof_monitor_events w cfg initMonitor readings
  else []

/-- C8: the sensor-monitoring loop and the fallback loop never both run in one
process lifetime, and whenever the fallback loop runs the sensor is disabled
and the sensor-driven triggers produce no events at all. -/
theorem fallback_mutual_exclusion (f : StartFlags) (w : Nat) (cfg : Thresholds)
    (readings : List (Option Nat)) :
    (¬(tof_monitoring_runs f = true ∧ fallback_loop_runs f = true))
    ∧ (fallback_loop_runs f = true →
        f.sensor_enabled = false ∧ sensor_trigger_events f w cfg readings = []) := by
  constructor
  · rintro ⟨h1, h2⟩
    rw [tof_monitoring_runs] at h1
    rw [fallback_loop_runs, Bool.and_eq_true] at h2
    rw [h1] at h2
    exact absurd h2.1 (by decide)
  · intro h
    rw [fallback_loop_runs, Bool.and_eq_true] at h
    have he : f.sensor_enabled = false := by simpa using h.1
    exact ⟨he, by simp [sensor_trigger_events, tof_monitoring_runs, he]⟩

/-- Witness for `fallback_mutual_exclusion`: a startup with the sensor disabled
and the fallback configured on runs the fallback, the sensor stays disabled
and no sensor-driven trigger fires. -/
theorem fallback_mutual_exclusion_witness :
    (⟨false, true⟩ : StartFlags).sensor_enabled = false
    ∧ sensor_trigger_events ⟨false, true⟩ 1 ⟨500, 700⟩ [some 800] = [] :=
  (fallback_mutual_exclusion ⟨false, true⟩ 1 ⟨500, 700⟩ [some 800]).2 rfl

end SmoothBox
